import Mathlib

/-!
Verification of the chat/message-delivery core of the you-app backend.

The development shallowly embeds the message data model
(`src/schemas/message.schema.ts`), the chat service
(`src/modules/chat/chat.service.ts`) and the queue consumer
(`src/modules/chat/chat.microservice.ts`).  The Mongo document store is a
`List Message`; each service method is a Lean function threading the store
explicitly; thrown `BadRequestException` / `NotFoundException` values become
an explicit `ChatError` result.  Timestamps (`new Date()`) are `Nat`
parameters supplied by the caller.
-/

namespace YouApp

/-- Models `Types.ObjectId.isValid` on strings: a 12-character string or a
24-character hex string is a valid ObjectId. -/
def isHexChar (c : Char) : Bool :=
  (('0' ≤ c) && (c ≤ '9')) || (('a' ≤ c) && (c ≤ 'f')) || (('A' ≤ c) && (c ≤ 'F'))

def isValidObjectId (s : String) : Bool :=
  s.length == 12 || (s.length == 24 && s.toList.all isHexChar)

/-- The whitespace set of JavaScript `String.prototype.trim`: the
`WhiteSpace` production (tab, VT, FF, space, NBSP, ZWNBSP/BOM and the
Unicode space separators) plus the `LineTerminator` production
(LF, CR, LS, PS). -/
def isJsWhitespace (c : Char) : Bool :=
  c == ' ' || c == '\t' || c == '\n' || c == '\r' ||
  c == '\x0b' || c == '\x0c' || c == '\u00A0' || c == '\uFEFF' ||
  c == '\u1680' || ('\u2000' ≤ c && c ≤ '\u200A') ||
  c == '\u2028' || c == '\u2029' || c == '\u202F' || c == '\u205F' || c == '\u3000'

def trimJS (s : String) : String :=
  ⟨((s.toList.dropWhile isJsWhitespace).reverse.dropWhile isJsWhitespace).reverse⟩

/-- `messageType` enum of the message schema: `['text','image','video','file']`,
default `'text'`. -/
inductive MessageType where
  | text | image | video | file
  deriving DecidableEq, Repr

/-- A persisted message document (`Message` in `message.schema.ts`).
`from` is a Lean keyword, hence the field name `from_`.  Nullable `Date`
fields are `Option Nat`. -/
structure Message where
  id : String
  from_ : String
  to_ : String
  content : String
  messageType : MessageType
  attachmentUrl : Option String
  delivered : Bool
  deliveredAt : Option Nat
  read : Bool
  readAt : Option Nat
  isDeleted : Bool
  deletedAt : Option Nat
  createdAt : Nat
  deriving DecidableEq, Repr

/-- The message collection. -/
abbrev Store := List Message

/-- A user document, restricted to the fields the chat pipeline touches. -/
structure User where
  id : String
  username : String
  email : String
  deriving DecidableEq, Repr

/-- `UsersService.findById`: `null` for an invalid ObjectId, otherwise a
lookup by `_id`. -/
def findById (users : List User) (id : String) : Option User :=
  if isValidObjectId id then users.find? (fun u => u.id == id) else none

/-- The payload published on the queue by `publishMessageToQueue`. -/
structure DeliveryEvent where
  messageId : String
  from_ : String
  to_ : String
  content : String
  messageType : MessageType
  timestamp : Nat
  deriving DecidableEq, Repr

/-- `SendMessageDto`. -/
structure SendMessageDto where
  to_ : String
  content : String
  messageType : Option MessageType
  attachmentUrl : Option String
  deriving DecidableEq, Repr

/-- Exceptions thrown by the service layer: `BadRequestException`,
`NotFoundException`, and plain `Error` (schema pre-save hook), which NestJS
surfaces as an internal server error rather than a client error. -/
inductive ChatError where
  | badRequest (msg : String)
  | notFound (msg : String)
  | internal (msg : String)
  deriving DecidableEq, Repr

/-- `findOneAndUpdate`: apply `f` to the first document matching `p`,
returning the updated document (`{ new: true }` semantics) and the updated
collection. -/
def updateFirst (p : Message → Bool) (f : Message → Message) : Store → Option Message × Store
  | [] => (none, [])
  | m :: rest =>
    if p m then (some (f m), f m :: rest)
    else
      let r := updateFirst p f rest
      (r.1, m :: r.2)

/-- `.sort({ createdAt: -1 })`: newest first. -/
def byCreatedDesc (a b : Message) : Prop := b.createdAt ≤ a.createdAt

instance : DecidableRel byCreatedDesc :=
  fun a b => inferInstanceAs (Decidable (b.createdAt ≤ a.createdAt))

instance : IsTotal Message byCreatedDesc := ⟨fun a b => Nat.le_total b.createdAt a.createdAt⟩

instance : IsTrans Message byCreatedDesc := ⟨fun _ _ _ h1 h2 => Nat.le_trans h2 h1⟩

def sortByCreatedDesc (l : List Message) : List Message :=
  List.insertionSort byCreatedDesc l

/-- The event payload built by `publishMessageToQueue` from a saved message. -/
def mkEvent (m : Message) : DeliveryEvent :=
  { messageId := m.id, from_ := m.from_, to_ := m.to_, content := m.content,
    messageType := m.messageType, timestamp := m.createdAt }

/-- `message.save()` on a new document whose `content` is already trimmed
(the service passes `content.trim()` and the schema has `trim: true`, a
setter applied on assignment, so the custom hook's re-trim is a no-op).
Mongoose runs schema validation — `required: true` (fails on the empty
string) and `maxlength: 5000` on `content` — before the custom
`pre('save')` hook, which guards against self-send and empty-after-trim
content.  Any failure aborts the save with a non-client error and nothing
is persisted.  Content length is measured in characters (`Nat`), standing
in for JS UTF-16 code units. -/
def saveMessage (m : Message) : Except ChatError Unit :=
  if m.content.isEmpty then
    .error (.internal "Message content cannot be empty")
  else if 5000 < m.content.length then
    .error (.internal "content is longer than the maximum allowed length (5000)")
  else if m.from_ == m.to_ then
    .error (.internal "Cannot send message to yourself")
  else
    .ok ()

/-- `ChatService.sendMessage`.  Returns the thrown error or the saved
message, together with the resulting store and queue.  `newId` is the
ObjectId minted for the new document, `now` the creation timestamp, and
`publishFails` injects a failure of the RabbitMQ `emit` (the `try/catch`
around `publishMessageToQueue` logs and swallows it). -/
def sendMessage (users : List User) (st : Store) (queue : List DeliveryEvent)
    (fromUserId : String) (dto : SendMessageDto) (newId : String) (now : Nat)
    (publishFails : Bool) : Except ChatError Message × Store × List DeliveryEvent :=
  if (findById users fromUserId).isNone then
    (.error (.notFound "Sender not found"), st, queue)
  else if (findById users dto.to_).isNone then
    (.error (.notFound "Receiver not found"), st, queue)
  else if fromUserId == dto.to_ then
    (.error (.badRequest "Cannot send message to yourself"), st, queue)
  else
    let msg : Message :=
      { id := newId, from_ := fromUserId, to_ := dto.to_,
        content := trimJS dto.content,
        messageType := dto.messageType.getD .text,
        attachmentUrl := dto.attachmentUrl,
        delivered := false, deliveredAt := none,
        read := false, readAt := none,
        isDeleted := false, deletedAt := none,
        createdAt := now }
    match saveMessage msg with
    | .error e => (.error e, st, queue)
    | .ok _ =>
      let st' := st ++ [msg]
      let queue' := if publishFails then queue else queue ++ [mkEvent msg]
      (.ok msg, st', queue')

/-- The Mongo filter of `getConversation`: either direction between the two
users, not deleted. -/
def conversationFilter (userId1 userId2 : String) (m : Message) : Bool :=
  ((m.from_ == userId1 && m.to_ == userId2) || (m.from_ == userId2 && m.to_ == userId1))
    && !m.isDeleted

/-- MongoDB cursor `.limit(n)`: `n = 0` means *no* limit; a positive `n`
caps the result at `n` documents. -/
def mongoLimit (n : Nat) (l : List Message) : List Message :=
  if n = 0 then l else l.take n

/-- `ChatService.getConversation`: validate ids, filter, sort newest-first,
apply the skip/limit window (Mongo applies skip before limit regardless of
call order, and `limit 0` means no limit), then reverse so the page reads
oldest-first. -/
def getConversation (st : Store) (userId1 userId2 : String) (limit skip : Nat) :
    Except ChatError (List Message) :=
  if !(isValidObjectId userId1) || !(isValidObjectId userId2) then
    .error (.badRequest "Invalid user IDs")
  else
    let sorted := sortByCreatedDesc (st.filter (conversationFilter userId1 userId2))
    .ok ((mongoLimit limit (sorted.drop skip)).reverse)

/-- `ChatService.getInboxMessages`. -/
def getInboxMessages (st : Store) (userId : String) (limit skip : Nat) :
    Except ChatError (List Message) :=
  if !(isValidObjectId userId) then
    .error (.badRequest "Invalid user ID")
  else
    let sorted := sortByCreatedDesc (st.filter (fun m => m.to_ == userId && !m.isDeleted))
    .ok (mongoLimit limit (sorted.drop skip))

/-- `ChatService.getUnreadMessages`. -/
def getUnreadMessages (st : Store) (userId : String) : Except ChatError (List Message) :=
  if !(isValidObjectId userId) then
    .error (.badRequest "Invalid user ID")
  else
    .ok (sortByCreatedDesc (st.filter (fun m => m.to_ == userId && !m.read && !m.isDeleted)))

/-- `ChatService.getUnreadCount`: returns `0` for an invalid id instead of
throwing. -/
def getUnreadCount (st : Store) (userId : String) : Nat :=
  if !(isValidObjectId userId) then 0
  else (st.filter (fun m => m.to_ == userId && !m.read && !m.isDeleted)).length

/-- The conditional-update filter of `markAsRead`. -/
def markAsReadFilter (messageId userId : String) (m : Message) : Bool :=
  m.id == messageId && m.to_ == userId && !m.isDeleted

/-- The `$set` of `markAsRead` / `markConversationAsRead`. -/
def setRead (now : Nat) (m : Message) : Message :=
  { m with read := true, readAt := some now, delivered := true, deliveredAt := some now }

/-- `ChatService.markAsRead`. -/
def markAsRead (st : Store) (messageId userId : String) (now : Nat) :
    Except ChatError Message × Store :=
  if !(isValidObjectId messageId) || !(isValidObjectId userId) then
    (.error (.badRequest "Invalid IDs"), st)
  else
    let r := updateFirst (markAsReadFilter messageId userId) (setRead now) st
    match r.1 with
    | none => (.error (.notFound "Message not found or unauthorized"), r.2)
    | some m => (.ok m, r.2)

/-- `ChatService.markConversationAsRead`: `updateMany` over all unread,
non-deleted messages from `fromUserId` to `userId`; returns `modifiedCount`
(every matched document has `read=false`, so each one is modified). -/
def markConversationAsRead (st : Store) (userId fromUserId : String) (now : Nat) :
    Except ChatError Nat × Store :=
  if !(isValidObjectId userId) || !(isValidObjectId fromUserId) then
    (.error (.badRequest "Invalid user IDs"), st)
  else
    let p := fun (m : Message) => m.from_ == fromUserId && m.to_ == userId && !m.read && !m.isDeleted
    (.ok (st.filter p).length, st.map (fun m => if p m then setRead now m else m))

/-- `ChatService.deleteMessage`: soft delete scoped to id plus participant;
note the filter has no `isDeleted: false` clause. -/
def deleteMessage (st : Store) (messageId userId : String) (now : Nat) :
    Except ChatError Unit × Store :=
  if !(isValidObjectId messageId) || !(isValidObjectId userId) then
    (.error (.badRequest "Invalid IDs"), st)
  else
    let r := updateFirst
      (fun m => m.id == messageId && (m.from_ == userId || m.to_ == userId))
      (fun m => { m with isDeleted := true, deletedAt := some now }) st
    match r.1 with
    | none => (.error (.notFound "Message not found or unauthorized"), r.2)
    | some _ => (.ok (), r.2)

/-- `ChatService.markAsDelivered` (consumer side): silently returns on an
invalid id, otherwise `findByIdAndUpdate` scoped by id only — it has no
`isDeleted` or recipient clause. -/
def markAsDelivered (st : Store) (messageId : String) (now : Nat) : Store :=
  if !(isValidObjectId messageId) then st
  else
    (updateFirst (fun m => m.id == messageId)
      (fun m => { m with delivered := true, deliveredAt := some now }) st).2

/-- The `$group._id` key of the chat-list aggregation: the other
participant of the message, from `userId`'s point of view. -/
def counterpart (userId : String) (m : Message) : String :=
  if m.from_ == userId then m.to_ else m.from_

/-- The `$match` stage of the chat-list aggregation. -/
def chatListMatch (userId : String) (m : Message) : Bool :=
  (m.from_ == userId || m.to_ == userId) && !m.isDeleted

/-- The `$group` stage over the newest-first sorted list: one group per
counterpart in first-seen order, carrying `$first: '$$ROOT'` (the newest
message of the group) and the unread count
`$sum` of `cond (to = userId ∧ read = false) 1 0`.  `seen` accumulates the
counterpart keys already grouped. -/
def chatGroupsAux (userId : String) (seen : List String) :
    List Message → List (String × Message × Nat)
  | [] => []
  | m :: rest =>
    let c := counterpart userId m
    if c ∈ seen then chatGroupsAux userId seen rest
    else
      (c, m,
        ((m :: rest).filter
          (fun m2 => counterpart userId m2 == c && (m2.to_ == userId && !m2.read))).length)
        :: chatGroupsAux userId (c :: seen) rest

/-- Group-sort order of the final `$sort` stage: newest `lastMessage` first. -/
def groupDesc (a b : String × Message × Nat) : Prop :=
  b.2.1.createdAt ≤ a.2.1.createdAt

instance : DecidableRel groupDesc :=
  fun a b => inferInstanceAs (Decidable (b.2.1.createdAt ≤ a.2.1.createdAt))

instance : IsTotal (String × Message × Nat) groupDesc :=
  ⟨fun a b => Nat.le_total b.2.1.createdAt a.2.1.createdAt⟩

instance : IsTrans (String × Message × Nat) groupDesc :=
  ⟨fun _ _ _ h1 h2 => Nat.le_trans h2 h1⟩

/-- The `$project`ed chat-list entry. -/
structure ChatListEntry where
  userId : String
  username : String
  email : String
  lastContent : String
  lastCreatedAt : Nat
  lastRead : Bool
  unreadCount : Nat
  deriving DecidableEq, Repr

/-- The `$lookup`/`$unwind`/`$project` tail of the chat-list aggregation:
resolve the counterpart user (dropping the group when the lookup yields no
user, as `$unwind` does) and project the response shape. -/
def chatListProject (users : List User) (g : String × Message × Nat) :
    Option ChatListEntry :=
  match findById users g.1 with
  | none => none
  | some user =>
    some { userId := g.1, username := user.username, email := user.email,
           lastContent := g.2.1.content, lastCreatedAt := g.2.1.createdAt,
           lastRead := g.2.1.read, unreadCount := g.2.2 }

/-- `ChatService.getChatList`: the aggregation pipeline
`$match`, `$sort` by `createdAt` descending, `$group` by counterpart,
`$sort` by `lastMessage.createdAt` descending, then
`$lookup`/`$unwind`/`$project`. -/
def getChatList (users : List User) (st : Store) (userId : String) :
    Except ChatError (List ChatListEntry) :=
  if !(isValidObjectId userId) then
    .error (.badRequest "Invalid user ID")
  else
    let sorted := sortByCreatedDesc (st.filter (chatListMatch userId))
    let groups := chatGroupsAux userId [] sorted
    let sortedGroups := List.insertionSort groupDesc groups
    .ok (sortedGroups.filterMap (chatListProject users))

/-- `ChatMicroservice.handleMessageSent`: the `try` block runs
mark-delivered, push notification, websocket notification and analytics in
order, then acks; the `catch` block logs and also acks.  The four `fail*`
flags inject an exception in the corresponding step (an exception skips the
remaining steps).  Returns the resulting store and the number of `ack`s
performed. -/
def handleMessageSent (st : Store) (data : DeliveryEvent) (now : Nat)
    (failDeliver failPush failSocket failAnalytics : Bool) : Store × Nat :=
  if failDeliver then
    -- exception before the store update commits; control reaches the catch
    -- block, which acks
    (st, 1)
  else
    let st1 := markAsDelivered st data.messageId now
    if failPush || failSocket || failAnalytics then
      -- exception in a best-effort step after the store update; the catch
      -- block acks and the delivered update is not rolled back
      (st1, 1)
    else
      -- all steps succeeded; the tail of the try block acks
      (st1, 1)


/-! ### Concrete fixtures (valid 24-hex ObjectIds) used by witnesses -/

def alice : User :=
  { id := "507f1f77bcf86cd799439011", username := "alice", email := "alice@example.com" }

def bob : User :=
  { id := "507f1f77bcf86cd799439012", username := "bob", email := "bob@example.com" }

def carol : User :=
  { id := "507f1f77bcf86cd799439013", username := "carol", email := "carol@example.com" }

/-- A fresh text message fixture in initial state. -/
def mkMsg (id f t c : String) (created : Nat) : Message :=
  { id := id, from_ := f, to_ := t, content := c, messageType := .text,
    attachmentUrl := none, delivered := false, deliveredAt := none,
    read := false, readAt := none, isDeleted := false, deletedAt := none,
    createdAt := created }

def msgAB1 : Message := mkMsg "6aaaaaaaaaaaaaaaaaaaaaa1" alice.id bob.id "hi bob" 1

def msgBA2 : Message := mkMsg "6aaaaaaaaaaaaaaaaaaaaaa2" bob.id alice.id "hi alice" 2

def msgCA3 : Message := mkMsg "6aaaaaaaaaaaaaaaaaaaaaa3" carol.id alice.id "yo" 3

/-- A soft-deleted message fixture. -/
def delMsg : Message :=
  { mkMsg "6aaaaaaaaaaaaaaaaaaaaaa9" alice.id bob.id "gone" 1 with
      isDeleted := true, deletedAt := some 3 }

end YouApp

namespace YouApp

/-! ### Helper lemmas about `updateFirst` and first matches -/

lemma updateFirst_of_forall_not {p : Message → Bool} {f : Message → Message} :
    ∀ {st : Store}, (∀ m ∈ st, p m = false) → updateFirst p f st = (none, st) := by
  intro st
  induction st with
  | nil => intro _; rfl
  | cons a l ih =>
    intro h
    have ha : p a = false := h a (List.mem_cons_self a l)
    have hl := ih (fun m hm => h m (List.mem_cons_of_mem a hm))
    simp [updateFirst, ha, hl]

lemma updateFirst_split {p : Message → Bool} {f : Message → Message} :
    ∀ {pre : Store} {m : Message} {post : Store},
      (∀ x ∈ pre, p x = false) → p m = true →
      updateFirst p f (pre ++ m :: post) = (some (f m), pre ++ f m :: post) := by
  intro pre
  induction pre with
  | nil => intro m post _ hm; simp [updateFirst, hm]
  | cons a l ih =>
    intro m post hpre hm
    have ha : p a = false := hpre a (List.mem_cons_self a l)
    have := @ih m post (fun x hx => hpre x (List.mem_cons_of_mem a hx)) hm
    simp [updateFirst, ha, this]

lemma updateFirst_forall₂ (p : Message → Bool) (f : Message → Message) :
    ∀ st : Store,
      List.Forall₂ (fun a b => b = a ∨ (p a = true ∧ b = f a)) st (updateFirst p f st).2 := by
  intro st
  induction st with
  | nil => exact List.Forall₂.nil
  | cons a l ih =>
    by_cases ha : p a = true
    · simp only [updateFirst, ha, if_true]
      exact List.Forall₂.cons (Or.inr ⟨ha, rfl⟩)
        ((List.forall₂_same).mpr (fun x _ => Or.inl rfl))
    · have ha' : p a = false := by simpa using ha
      simp only [updateFirst, ha', Bool.false_eq_true, if_false]
      exact List.Forall₂.cons (Or.inl rfl) ih

lemma exists_first_split {p : Message → Bool} :
    ∀ {st : Store}, (∃ m ∈ st, p m = true) →
      ∃ pre m post, st = pre ++ m :: post ∧ (∀ x ∈ pre, p x = false) ∧ p m = true := by
  intro st
  induction st with
  | nil => rintro ⟨m, hm, -⟩; exact absurd hm (List.not_mem_nil m)
  | cons a l ih =>
    rintro ⟨m, hm, hpm⟩
    by_cases hpa : p a = true
    · exact ⟨[], a, l, rfl, by intro x hx; exact absurd hx (List.not_mem_nil x), hpa⟩
    · have hex : ∃ m ∈ l, p m = true := by
        rcases List.mem_cons.mp hm with rfl | h
        · exact absurd hpm hpa
        · exact ⟨m, h, hpm⟩
      obtain ⟨pre, mm, post, heq, hpre, hpmm⟩ := ih hex
      refine ⟨a :: pre, mm, post, by rw [heq, List.cons_append], ?_, hpmm⟩
      intro x hx
      rcases List.mem_cons.mp hx with rfl | h
      · simpa using hpa
      · exact hpre x h

/-! ### C9: `getConversation` is symmetric in its two user arguments -/

/-- **C9.** For every store, every pair of user-id strings and every
`limit`/`skip`, `getConversation(A, B, limit, skip)` and
`getConversation(B, A, limit, skip)` return the identical ordered list of
messages (including identical error outcomes on invalid ids). -/
theorem getConversation_symm (st : Store) (a b : String) (limit skip : Nat) :
    getConversation st a b limit skip = getConversation st b a limit skip := by
  unfold getConversation
  rw [Bool.or_comm (!(isValidObjectId a)) (!(isValidObjectId b))]
  have hfilter : st.filter (conversationFilter a b) = st.filter (conversationFilter b a) := by
    apply List.filter_congr
    intro m _
    unfold conversationFilter
    rw [Bool.or_comm (m.from_ == a && m.to_ == b)]
  rw [hfilter]

/-! ### C10: invalid-id asymmetry of the read queries -/

/-- **C10.** For every string `s` that is not a valid ObjectId,
`getUnreadCount` returns `0` without raising, while the sibling queries
`getUnreadMessages`, `getInboxMessages` and `getConversation` reject the
invalid id with a bad-request validation error. -/
theorem invalid_id_queries (st : Store) (s other : String) (limit skip : Nat)
    (h : isValidObjectId s = false) :
    getUnreadCount st s = 0 ∧
    getUnreadMessages st s = .error (.badRequest "Invalid user ID") ∧
    getInboxMessages st s limit skip = .error (.badRequest "Invalid user ID") ∧
    getConversation st s other limit skip = .error (.badRequest "Invalid user IDs") := by
  refine ⟨?_, ?_, ?_, ?_⟩ <;> simp [getUnreadCount, getUnreadMessages, getInboxMessages,
    getConversation, h]

/-- Witness for C10 at `s = "invalid-id"` on a singleton store. -/
theorem invalid_id_queries_witness :
    isValidObjectId "invalid-id" = false ∧
    (getUnreadCount [] "invalid-id" = 0 ∧
     getUnreadMessages [] "invalid-id" = .error (.badRequest "Invalid user ID") ∧
     getInboxMessages [] "invalid-id" 50 0 = .error (.badRequest "Invalid user ID") ∧
     getConversation [] "invalid-id" "507f1f77bcf86cd799439011" 50 0 =
       .error (.badRequest "Invalid user IDs")) :=
  ⟨by decide, invalid_id_queries [] "invalid-id" "507f1f77bcf86cd799439011" 50 0 (by decide)⟩

/-! ### C8: the consumer acknowledges exactly once, success or failure -/

/-- **C8.** `handleMessageSent` acknowledges the event exactly once whatever
combination of steps of the side-effect pipeline raises: a processing
exception is swallowed (the handler always returns normally), the event is
acknowledged exactly once either at the end of the `try` block or in the
`catch` block, and a failure after the mark-delivered step does not roll
that store update back. -/
theorem handleMessageSent_acks_once (st : Store) (data : DeliveryEvent) (now : Nat)
    (failDeliver failPush failSocket failAnalytics : Bool) :
    (handleMessageSent st data now failDeliver failPush failSocket failAnalytics).2 = 1 ∧
    (handleMessageSent st data now failDeliver failPush failSocket failAnalytics).1 =
      (if failDeliver then st else markAsDelivered st data.messageId now) := by
  unfold handleMessageSent
  cases failDeliver <;> cases failPush <;> cases failSocket <;> cases failAnalytics <;> simp

end YouApp

namespace YouApp

/-! ### C1: queue-publish failure is swallowed by `sendMessage` -/

/-- **C1.** For every valid sender/receiver pair (both resolve to existing
users, sender ≠ receiver) and content that is non-empty and at most 5000
characters after trimming (the domain on which `message.save()` succeeds),
`sendMessage` persists the message and returns it normally whether or not
the queue publish raises: the result value and the resulting store are the
same for both values of `publishFails`; only the queue differs.  The new
message has `delivered = false`, `read = false`, `isDeleted = false`. -/
theorem sendMessage_swallows_publish_failure
    (users : List User) (st : Store) (queue : List DeliveryEvent)
    (fromUserId : String) (dto : SendMessageDto) (newId : String) (now : Nat)
    (hs : (findById users fromUserId).isSome = true)
    (hr : (findById users dto.to_).isSome = true)
    (hne : fromUserId ≠ dto.to_)
    (hc : (trimJS dto.content).isEmpty = false)
    (hlen : (trimJS dto.content).length ≤ 5000) :
    ∃ msg : Message,
      msg.delivered = false ∧ msg.read = false ∧ msg.isDeleted = false ∧
      msg.from_ = fromUserId ∧ msg.to_ = dto.to_ ∧ msg.content = trimJS dto.content ∧
      ∀ publishFails,
        sendMessage users st queue fromUserId dto newId now publishFails =
          (.ok msg, st ++ [msg],
            if publishFails then queue else queue ++ [mkEvent msg]) := by
  refine ⟨{ id := newId, from_ := fromUserId, to_ := dto.to_,
            content := trimJS dto.content, messageType := dto.messageType.getD .text,
            attachmentUrl := dto.attachmentUrl, delivered := false, deliveredAt := none,
            read := false, readAt := none, isDeleted := false, deletedAt := none,
            createdAt := now }, rfl, rfl, rfl, rfl, rfl, rfl, ?_⟩
  intro pf
  have h1 : (findById users fromUserId).isNone = false := by
    cases hfb : findById users fromUserId with
    | none => rw [hfb] at hs; simp at hs
    | some u => rfl
  have h2 : (findById users dto.to_).isNone = false := by
    cases hfb : findById users dto.to_ with
    | none => rw [hfb] at hr; simp at hr
    | some u => rfl
  have h3 : (fromUserId == dto.to_) = false := by simpa using hne
  have hnl : ¬(5000 < (trimJS dto.content).length) := Nat.not_lt.mpr hlen
  simp [sendMessage, saveMessage, h1, h2, h3, hc, hnl]

/-- Witness for C1: Alice sends `" hello "` to Bob; both values of the
publish-failure flag yield the same persisted message and result. -/
theorem sendMessage_swallows_publish_failure_witness :
    ((findById [alice, bob] alice.id).isSome = true ∧
     (findById [alice, bob] bob.id).isSome = true ∧
     alice.id ≠ bob.id ∧ (trimJS " hello ").isEmpty = false ∧
     (trimJS " hello ").length ≤ 5000) ∧
    (∃ msg : Message,
      msg.delivered = false ∧ msg.read = false ∧ msg.isDeleted = false ∧
      msg.from_ = alice.id ∧
      msg.to_ = (SendMessageDto.mk bob.id " hello " none none).to_ ∧
      msg.content = trimJS (SendMessageDto.mk bob.id " hello " none none).content ∧
      ∀ publishFails,
        sendMessage [alice, bob] [] [] alice.id
            (SendMessageDto.mk bob.id " hello " none none)
            "6aaaaaaaaaaaaaaaaaaaaaa4" 10 publishFails =
          (.ok msg, [] ++ [msg],
            if publishFails then [] else [] ++ [mkEvent msg])) :=
  ⟨⟨by decide, by decide, by decide, by decide, by decide⟩,
    sendMessage_swallows_publish_failure [alice, bob] [] [] alice.id
      (SendMessageDto.mk bob.id " hello " none none) "6aaaaaaaaaaaaaaaaaaaaaa4" 10
      (by decide) (by decide) (by decide) (by decide) (by decide)⟩

/-! ### C7: self-send is rejected with a validation error -/

/-- **C7.** For every user id `u` that resolves to an existing user and
every dto addressed to `u` itself, `sendMessage` fails with the
`BadRequestException "Cannot send message to yourself"` and persists no
message and publishes no event, regardless of the store, the queue, and
whether the publish would fail. -/
theorem sendMessage_self_rejected
    (users : List User) (st : Store) (queue : List DeliveryEvent)
    (u : String) (dto : SendMessageDto) (newId : String) (now : Nat) (pf : Bool)
    (hu : (findById users u).isSome = true) (hself : dto.to_ = u) :
    sendMessage users st queue u dto newId now pf =
      (.error (.badRequest "Cannot send message to yourself"), st, queue) := by
  have h1 : (findById users u).isNone = false := by
    cases hfb : findById users u with
    | none => rw [hfb] at hu; simp at hu
    | some x => rfl
  unfold sendMessage
  rw [hself]
  simp [h1]

/-- Witness for C7: Alice messaging herself is rejected on an arbitrary
store/queue state with the publish-failure flag set. -/
theorem sendMessage_self_rejected_witness :
    ((findById [alice, bob] alice.id).isSome = true ∧
     (SendMessageDto.mk alice.id "hi me" none none).to_ = alice.id) ∧
    sendMessage [alice, bob] [msgAB1] [mkEvent msgAB1] alice.id
        (SendMessageDto.mk alice.id "hi me" none none) "6aaaaaaaaaaaaaaaaaaaaaa5" 11 true =
      (.error (.badRequest "Cannot send message to yourself"), [msgAB1], [mkEvent msgAB1]) :=
  ⟨⟨by decide, rfl⟩,
    sendMessage_self_rejected [alice, bob] [msgAB1] [mkEvent msgAB1] alice.id
      (SendMessageDto.mk alice.id "hi me" none none) "6aaaaaaaaaaaaaaaaaaaaaa5" 11 true
      (by decide) rfl⟩

end YouApp

namespace YouApp

/-! ### C3 and C6: `markAsRead` -/

lemma markAsReadFilter_iff {mid uid : String} {m : Message} :
    markAsReadFilter mid uid m = true ↔ (m.id = mid ∧ m.to_ = uid ∧ m.isDeleted = false) := by
  unfold markAsReadFilter
  simp [Bool.and_eq_true, beq_iff_eq, Bool.not_eq_true', and_assoc]

lemma markAsReadFilter_false_of {mid uid : String} {m : Message}
    (h : ¬(m.id = mid ∧ m.to_ = uid ∧ m.isDeleted = false)) :
    markAsReadFilter mid uid m = false := by
  cases hb : markAsReadFilter mid uid m
  · rfl
  · exact absurd (markAsReadFilter_iff.mp hb) h

/-- **C3.** For valid ids, `markAsRead` is a single conditional update scoped
to `{_id = messageId, to = readerId, isDeleted = false}` setting
`read = true, readAt = now, delivered = true, deliveredAt = now`: if no
document matches — the message does not exist, the reader is not the
recipient, or the message is deleted — it fails with the same
not-found-class error in all cases and leaves the store unchanged; if the
(unique) first match exists it updates exactly that document. -/
theorem markAsRead_conditional_update (st : Store) (messageId userId : String) (now : Nat)
    (hm : isValidObjectId messageId = true) (hu : isValidObjectId userId = true) :
    ((∀ m ∈ st, ¬(m.id = messageId ∧ m.to_ = userId ∧ m.isDeleted = false)) →
       markAsRead st messageId userId now =
         (.error (.notFound "Message not found or unauthorized"), st)) ∧
    (∀ pre m post,
       st = pre ++ m :: post →
       (∀ x ∈ pre, ¬(x.id = messageId ∧ x.to_ = userId ∧ x.isDeleted = false)) →
       m.id = messageId → m.to_ = userId → m.isDeleted = false →
       markAsRead st messageId userId now =
         (.ok { m with read := true, readAt := some now,
                       delivered := true, deliveredAt := some now },
          pre ++ { m with read := true, readAt := some now,
                          delivered := true, deliveredAt := some now } :: post)) := by
  constructor
  · intro h
    have hf : ∀ x ∈ st, markAsReadFilter messageId userId x = false :=
      fun x hx => markAsReadFilter_false_of (h x hx)
    have hupd := updateFirst_of_forall_not (f := setRead now) hf
    simp [markAsRead, hm, hu, hupd]
  · intro pre m post hst hpre h1 h2 h3
    subst hst
    have hpm : markAsReadFilter messageId userId m = true :=
      markAsReadFilter_iff.mpr ⟨h1, h2, h3⟩
    have hpre' : ∀ x ∈ pre, markAsReadFilter messageId userId x = false :=
      fun x hx => markAsReadFilter_false_of (hpre x hx)
    have hupd := @updateFirst_split _ (setRead now) pre m post hpre' hpm
    simp [markAsRead, hm, hu, hupd, setRead]

/-- Witness for C3: marking a nonexistent message id as read on a store
holding an unrelated message fails with the not-found error and leaves the
store unchanged. -/
theorem markAsRead_conditional_update_witness :
    markAsRead [msgAB1] msgBA2.id bob.id 5 =
      (.error (.notFound "Message not found or unauthorized"), [msgAB1]) :=
  (markAsRead_conditional_update [msgAB1] msgBA2.id bob.id 5 (by decide) (by decide)).1
    (by decide)

/-- **C6.** `markAsRead` is idempotent: on a message readable by `readerId`
both successive calls succeed with `read = true`, and the only state change
made by the second call is refreshed `readAt`/`deliveredAt` timestamps. -/
theorem markAsRead_idempotent (st : Store) (mid uid : String) (now1 now2 : Nat)
    (hm : isValidObjectId mid = true) (hu : isValidObjectId uid = true)
    (hex : ∃ m ∈ st, m.id = mid ∧ m.to_ = uid ∧ m.isDeleted = false) :
    ∃ m1 st1 m2 st2,
      markAsRead st mid uid now1 = (.ok m1, st1) ∧
      markAsRead st1 mid uid now2 = (.ok m2, st2) ∧
      m1.read = true ∧ m2.read = true ∧
      m2 = { m1 with readAt := some now2, deliveredAt := some now2 } ∧
      List.Forall₂ (fun a b => b = { a with readAt := b.readAt, deliveredAt := b.deliveredAt })
        st1 st2 := by
  have hex' : ∃ m ∈ st, markAsReadFilter mid uid m = true := by
    obtain ⟨m, hmem, hp⟩ := hex
    exact ⟨m, hmem, markAsReadFilter_iff.mpr hp⟩
  obtain ⟨pre, m, post, rfl, hpre, hpm⟩ := exists_first_split hex'
  obtain ⟨h1, h2, h3⟩ := markAsReadFilter_iff.mp hpm
  have e1 := @updateFirst_split _ (setRead now1) pre m post hpre hpm
  have hpm2 : markAsReadFilter mid uid (setRead now1 m) = true :=
    markAsReadFilter_iff.mpr ⟨h1, h2, h3⟩
  have e2 := @updateFirst_split _ (setRead now2) pre (setRead now1 m) post hpre hpm2
  refine ⟨setRead now1 m, pre ++ setRead now1 m :: post,
          setRead now2 (setRead now1 m), pre ++ setRead now2 (setRead now1 m) :: post,
          ?_, ?_, rfl, rfl, rfl, ?_⟩
  · simp [markAsRead, hm, hu, e1]
  · simp [markAsRead, hm, hu, e2]
  · refine List.rel_append ?_ (List.Forall₂.cons rfl ?_)
    · exact List.forall₂_same.mpr (fun x _ => rfl)
    · exact List.forall₂_same.mpr (fun x _ => rfl)

/-- Witness for C6: Bob reads `msgAB1` twice (timestamps 5 then 7); both
calls succeed with `read = true` and the second only refreshes timestamps. -/
theorem markAsRead_idempotent_witness :
    (isValidObjectId msgAB1.id = true ∧ isValidObjectId bob.id = true ∧
     ∃ m ∈ [msgAB1], m.id = msgAB1.id ∧ m.to_ = bob.id ∧ m.isDeleted = false) ∧
    (∃ m1 st1 m2 st2,
      markAsRead [msgAB1] msgAB1.id bob.id 5 = (.ok m1, st1) ∧
      markAsRead st1 msgAB1.id bob.id 7 = (.ok m2, st2) ∧
      m1.read = true ∧ m2.read = true ∧
      m2 = { m1 with readAt := some 7, deliveredAt := some 7 } ∧
      List.Forall₂ (fun a b => b = { a with readAt := b.readAt, deliveredAt := b.deliveredAt })
        st1 st2) :=
  ⟨⟨by decide, by decide, by decide⟩,
    markAsRead_idempotent [msgAB1] msgAB1.id bob.id 5 7 (by decide) (by decide) (by decide)⟩

end YouApp

namespace YouApp

/-! ### C2: mutability of soft-deleted messages -/

lemma markAsRead_store_cases (st : Store) (mid uid : String) (now : Nat) :
    (markAsRead st mid uid now).2 = st ∨
    (markAsRead st mid uid now).2 =
      (updateFirst (markAsReadFilter mid uid) (setRead now) st).2 := by
  unfold markAsRead
  split
  · exact Or.inl rfl
  · right
    rcases hu : updateFirst (markAsReadFilter mid uid) (setRead now) st with ⟨r1, r2⟩
    cases r1 <;> rfl

lemma deleteMessage_store_cases (st : Store) (mid uid : String) (now : Nat) :
    (deleteMessage st mid uid now).2 = st ∨
    (deleteMessage st mid uid now).2 =
      (updateFirst (fun m => m.id == mid && (m.from_ == uid || m.to_ == uid))
        (fun m => { m with isDeleted := true, deletedAt := some now }) st).2 := by
  unfold deleteMessage
  split
  · exact Or.inl rfl
  · right
    rcases hu : updateFirst (fun m => m.id == mid && (m.from_ == uid || m.to_ == uid))
        (fun m => { m with isDeleted := true, deletedAt := some now }) st with ⟨r1, r2⟩
    cases r1 <;> rfl

lemma markConversationAsRead_store_cases (st : Store) (uid fuid : String) (now : Nat) :
    (markConversationAsRead st uid fuid now).2 = st ∨
    (markConversationAsRead st uid fuid now).2 =
      st.map (fun m =>
        if m.from_ == fuid && m.to_ == uid && !m.read && !m.isDeleted
        then setRead now m else m) := by
  unfold markConversationAsRead
  split
  · exact Or.inl rfl
  · exact Or.inr rfl

/-- **C2 counterexample.** The claim fails as stated: on the singleton store
holding the soft-deleted `delMsg`, `markAsDelivered` sets
`delivered`/`deliveredAt` on the deleted message, and `deleteMessage` by a
participant refreshes its `deletedAt`; in both cases the stored record
changes. -/
theorem deleted_message_mutated_counterexample :
    delMsg.isDeleted = true ∧
    markAsDelivered [delMsg] delMsg.id 5 =
      [{ delMsg with delivered := true, deliveredAt := some 5 }] ∧
    ({ delMsg with delivered := true, deliveredAt := some 5 } : Message) ≠ delMsg ∧
    (deleteMessage [delMsg] delMsg.id alice.id 7).2 = [{ delMsg with deletedAt := some 7 }] ∧
    ({ delMsg with deletedAt := some 7 } : Message) ≠ delMsg := by
  refine ⟨by decide, by decide, by decide, by decide, by decide⟩

/-- **C2 amended.** Once `isDeleted = true`, `sendMessage`, `markAsRead` and
`markConversationAsRead` leave the message's fields unchanged (their
filters require `isDeleted = false`, and `sendMessage` only appends); but
`deleteMessage` by a participant may refresh the message's `deletedAt`
timestamp, and `markAsDelivered` still sets `delivered`/`deliveredAt` even
on a soft-deleted message, since their filters have no `isDeleted` clause. -/
theorem deleted_message_mutation_boundary
    (st : Store) (users : List User) (queue : List DeliveryEvent)
    (senderId : String) (dto : SendMessageDto) (newId : String)
    (mid readerId uid fromUid : String) (now : Nat) (pf : Bool) :
    (∃ appended, (sendMessage users st queue senderId dto newId now pf).2.1 = st ++ appended) ∧
    List.Forall₂ (fun a b => a.isDeleted = true → b = a) st
      (markAsRead st mid readerId now).2 ∧
    List.Forall₂ (fun a b => a.isDeleted = true → b = a) st
      (markConversationAsRead st uid fromUid now).2 ∧
    List.Forall₂ (fun a b => a.isDeleted = true → b = { a with deletedAt := b.deletedAt }) st
      (deleteMessage st mid uid now).2 ∧
    List.Forall₂
      (fun a b => a.isDeleted = true →
        b = { a with delivered := b.delivered, deliveredAt := b.deliveredAt }) st
      (markAsDelivered st mid now) := by
  refine ⟨?_, ?_, ?_, ?_, ?_⟩
  · unfold sendMessage
    by_cases c1 : (findById users senderId).isNone = true
    · exact ⟨[], by simp [c1]⟩
    by_cases c2 : (findById users dto.to_).isNone = true
    · exact ⟨[], by simp [c1, c2]⟩
    by_cases c3 : (senderId == dto.to_) = true
    · exact ⟨[], by simp [c1, c2, c3]⟩
    cases hsv : saveMessage
        { id := newId, from_ := senderId, to_ := dto.to_,
          content := trimJS dto.content,
          messageType := dto.messageType.getD .text,
          attachmentUrl := dto.attachmentUrl,
          delivered := false, deliveredAt := none, read := false, readAt := none,
          isDeleted := false, deletedAt := none, createdAt := now } with
    | error e => exact ⟨[], by simp [c1, c2, c3, hsv]⟩
    | ok u =>
      exact ⟨[{ id := newId, from_ := senderId, to_ := dto.to_,
                content := trimJS dto.content,
                messageType := dto.messageType.getD .text,
                attachmentUrl := dto.attachmentUrl,
                delivered := false, deliveredAt := none, read := false, readAt := none,
                isDeleted := false, deletedAt := none, createdAt := now }],
        by simp [c1, c2, c3, hsv]⟩
  · rcases markAsRead_store_cases st mid readerId now with h | h <;> rw [h]
    · exact List.forall₂_same.mpr (fun x _ _ => rfl)
    · refine (updateFirst_forall₂ _ _ st).imp ?_
      rintro a b (rfl | ⟨hp, rfl⟩) hdel
      · rfl
      · obtain ⟨-, -, hfalse⟩ := markAsReadFilter_iff.mp hp
        rw [hdel] at hfalse
        exact absurd hfalse (by simp)
  · rcases markConversationAsRead_store_cases st uid fromUid now with h | h <;> rw [h]
    · exact List.forall₂_same.mpr (fun x _ _ => rfl)
    · refine List.forall₂_map_right_iff.mpr (List.forall₂_same.mpr ?_)
      intro x _ hdel
      have : (x.from_ == fromUid && x.to_ == uid && !x.read && !x.isDeleted) = false := by
        rw [hdel]; simp
      rw [this]
      simp
  · rcases deleteMessage_store_cases st mid uid now with h | h <;> rw [h]
    · exact List.forall₂_same.mpr (fun x _ _ => rfl)
    · refine (updateFirst_forall₂ _ _ st).imp ?_
      rintro a b (rfl | ⟨-, rfl⟩) hdel
      · rfl
      · cases a
        simp only [Message.mk.injEq] at hdel ⊢
        simp_all
  · unfold markAsDelivered
    split
    · exact List.forall₂_same.mpr (fun x _ _ => rfl)
    · refine (updateFirst_forall₂ _ _ st).imp ?_
      rintro a b (rfl | ⟨-, rfl⟩) hdel <;> rfl

/-! ### C5: conversation pagination window -/

lemma conversationFilter_iff {a b : String} {m : Message} :
    conversationFilter a b m = true ↔
      (((m.from_ = a ∧ m.to_ = b) ∨ (m.from_ = b ∧ m.to_ = a)) ∧ m.isDeleted = false) := by
  unfold conversationFilter
  simp [Bool.and_eq_true, Bool.or_eq_true, beq_iff_eq, Bool.not_eq_true']

/-- **C5 counterexample.** The claim quantifies over *every* `limit`, but
MongoDB treats `limit 0` as "no limit": on a one-message store
`getConversation` at `limit = 0` returns the whole conversation, not the
reversal of a size-0 window (which would be `[]`). -/
theorem getConversation_limit_zero_counterexample :
    getConversation [msgAB1] alice.id bob.id 0 0 = .ok [msgAB1] ∧
    ([msgAB1] : List Message) ≠
      (((sortByCreatedDesc
          ([msgAB1].filter (conversationFilter alice.id bob.id))).drop 0).take 0).reverse := by
  exact ⟨rfl, by decide⟩

/-- **C5 amended.** For valid user ids and every *positive* `limit`
(MongoDB treats `limit 0` as "no limit"; the HTTP layer clamps the limit
into `[1, 200]` before calling the service), `getConversation(A, B, limit,
skip)` selects the non-deleted messages between exactly `A` and `B`
(either direction), takes the `skip`/`limit` window on a newest-first
ordering of them, and returns that window reversed: the result reads
oldest-first while the window is computed backward from the most recent
message. -/
theorem getConversation_window (st : Store) (a b : String) (limit skip : Nat)
    (ha : isValidObjectId a = true) (hb : isValidObjectId b = true)
    (hl : 1 ≤ limit) :
    ∃ sorted res,
      List.Perm sorted (st.filter (conversationFilter a b)) ∧
      List.Sorted byCreatedDesc sorted ∧
      res = ((sorted.drop skip).take limit).reverse ∧
      getConversation st a b limit skip = .ok res ∧
      (∀ m ∈ res,
        ((m.from_ = a ∧ m.to_ = b) ∨ (m.from_ = b ∧ m.to_ = a)) ∧ m.isDeleted = false) ∧
      List.Pairwise (fun x y => x.createdAt ≤ y.createdAt) res := by
  refine ⟨sortByCreatedDesc (st.filter (conversationFilter a b)),
          (((sortByCreatedDesc (st.filter (conversationFilter a b))).drop skip).take
            limit).reverse,
          List.perm_insertionSort byCreatedDesc _,
          List.sorted_insertionSort byCreatedDesc _,
          rfl, ?_, ?_, ?_⟩
  · have hne0 : limit ≠ 0 := by omega
    simp [getConversation, ha, hb, mongoLimit, hne0]
  · intro m hm
    have hm1 : m ∈ (sortByCreatedDesc (st.filter (conversationFilter a b))).drop skip :=
      List.mem_of_mem_take (List.mem_reverse.mp hm)
    have hm2 : m ∈ sortByCreatedDesc (st.filter (conversationFilter a b)) :=
      List.mem_of_mem_drop hm1
    have hm3 : m ∈ st.filter (conversationFilter a b) :=
      (List.perm_insertionSort byCreatedDesc _).mem_iff.mp hm2
    exact conversationFilter_iff.mp (List.mem_filter.mp hm3).2
  · rw [List.pairwise_reverse]
    have hs : List.Sorted byCreatedDesc (sortByCreatedDesc (st.filter (conversationFilter a b))) :=
      List.sorted_insertionSort byCreatedDesc _
    have hsub :
        (((sortByCreatedDesc (st.filter (conversationFilter a b))).drop skip).take
          limit).Sublist (sortByCreatedDesc (st.filter (conversationFilter a b))) :=
      (List.take_sublist _ _).trans (List.drop_sublist _ _)
    exact hs.sublist hsub

/-- Witness for C5 (amended): Alice–Bob conversation on a four-message
store (one message deleted, one from Carol) with `limit = 1`, `skip = 0`. -/
theorem getConversation_window_witness :
    (isValidObjectId alice.id = true ∧ isValidObjectId bob.id = true ∧ 1 ≤ 1) ∧
    (∃ sorted res,
      List.Perm sorted ([msgAB1, msgBA2, msgCA3, delMsg].filter
        (conversationFilter alice.id bob.id)) ∧
      List.Sorted byCreatedDesc sorted ∧
      res = ((sorted.drop 0).take 1).reverse ∧
      getConversation [msgAB1, msgBA2, msgCA3, delMsg] alice.id bob.id 1 0 = .ok res ∧
      (∀ m ∈ res,
        ((m.from_ = alice.id ∧ m.to_ = bob.id) ∨ (m.from_ = bob.id ∧ m.to_ = alice.id)) ∧
          m.isDeleted = false) ∧
      List.Pairwise (fun x y => x.createdAt ≤ y.createdAt) res) :=
  ⟨⟨by decide, by decide, by decide⟩,
    getConversation_window [msgAB1, msgBA2, msgCA3, delMsg] alice.id bob.id 1 0
      (by decide) (by decide) (by decide)⟩

end YouApp

namespace YouApp

/-! ### C4: the chat-list aggregation -/

lemma chatListMatch_iff {u : String} {m : Message} :
    chatListMatch u m = true ↔ ((m.from_ = u ∨ m.to_ = u) ∧ m.isDeleted = false) := by
  unfold chatListMatch
  simp [Bool.and_eq_true, Bool.or_eq_true, beq_iff_eq, Bool.not_eq_true']

lemma chatListProject_some {users : List User} {g : String × Message × Nat}
    {e : ChatListEntry} (h : chatListProject users g = some e) :
    e.userId = g.1 ∧ e.lastContent = g.2.1.content ∧ e.lastCreatedAt = g.2.1.createdAt ∧
    e.lastRead = g.2.1.read ∧ e.unreadCount = g.2.2 := by
  unfold chatListProject at h
  cases hfb : findById users g.1 with
  | none => rw [hfb] at h; exact absurd h (by simp)
  | some user =>
    rw [hfb] at h
    obtain rfl := Option.some.inj h
    exact ⟨rfl, rfl, rfl, rfl, rfl⟩

lemma pairwise_filterMap_of {α β : Type} {R : α → α → Prop} {S : β → β → Prop}
    (f : α → Option β)
    (hf : ∀ a a' b b', f a = some b → f a' = some b' → R a a' → S b b') :
    ∀ {l : List α}, l.Pairwise R → (l.filterMap f).Pairwise S := by
  intro l hl
  induction hl with
  | nil => simp
  | @cons a l' ha hl' ih =>
    cases hfa : f a with
    | none => rw [List.filterMap_cons_none hfa]; exact ih
    | some b =>
      rw [List.filterMap_cons_some hfa]
      refine List.Pairwise.cons ?_ ih
      intro b' hb'
      obtain ⟨a', ha', hfa'⟩ := List.mem_filterMap.mp hb'
      exact hf a a' b b' hfa hfa' (ha a' ha')

lemma count_pred_eq (u c : String) (m : Message) (hne : m.from_ ≠ m.to_) :
    ((counterpart u m == c && (m.to_ == u && !m.read)) && chatListMatch u m)
      = (m.from_ == c && m.to_ == u && !m.read && !m.isDeleted) := by
  unfold counterpart chatListMatch
  by_cases h2 : m.to_ = u
  · have h1 : m.from_ ≠ u := fun h => hne (h.trans h2.symm)
    have hb1 : (m.from_ == u) = false := by simp [h1]
    have hb2 : (m.to_ == u) = true := by simp [h2]
    simp only [hb1, hb2]
    cases hfc : (m.from_ == c) <;> cases hr : m.read <;> cases hd : m.isDeleted <;>
      simp [hfc, hr, hd]
  · have hb2 : (m.to_ == u) = false := by simp [h2]
    simp [hb2]

lemma chatGroupsAux_key_not_seen (u : String) :
    ∀ (l : List Message) (seen : List String), ∀ g ∈ chatGroupsAux u seen l, g.1 ∉ seen := by
  intro l
  induction l with
  | nil => intro seen g hg; simp [chatGroupsAux] at hg
  | cons m rest ih =>
    intro seen g hg
    simp only [chatGroupsAux] at hg
    by_cases hc : counterpart u m ∈ seen
    · rw [if_pos hc] at hg
      exact ih seen g hg
    · rw [if_neg hc] at hg
      rcases List.mem_cons.mp hg with rfl | htail
      · exact hc
      · have hnotin := ih (counterpart u m :: seen) g htail
        exact fun hmem => hnotin (List.mem_cons_of_mem _ hmem)

lemma chatGroupsAux_keys_pairwise (u : String) :
    ∀ (l : List Message) (seen : List String),
      (chatGroupsAux u seen l).Pairwise (fun g h => g.1 ≠ h.1) := by
  intro l
  induction l with
  | nil => intro seen; simp [chatGroupsAux]
  | cons m rest ih =>
    intro seen
    simp only [chatGroupsAux]
    by_cases hc : counterpart u m ∈ seen
    · rw [if_pos hc]
      exact ih seen
    · rw [if_neg hc]
      refine List.Pairwise.cons ?_ (ih _)
      intro g hg heq
      have hnotin := chatGroupsAux_key_not_seen u rest (counterpart u m :: seen) g hg
      exact hnotin (heq ▸ List.mem_cons_self _ _)

/-- Full characterisation of the `$group` stage: every emitted group carries
the newest matching message as `lastMessage` (`$first` over the sorted
input) and the exact unread count over the whole input list.  `pre` is the
already-consumed prefix, whose counterpart keys are exactly `seen`. -/
lemma chatGroupsAux_mem_spec (u : String) :
    ∀ (l pre : List Message) (seen : List String),
      (∀ s, s ∈ seen ↔ ∃ m ∈ pre, counterpart u m = s) →
      List.Sorted byCreatedDesc (pre ++ l) →
      ∀ g ∈ chatGroupsAux u seen l,
        g.2.1 ∈ l ∧ counterpart u g.2.1 = g.1 ∧
        (∀ m ∈ pre ++ l, counterpart u m = g.1 → m.createdAt ≤ g.2.1.createdAt) ∧
        g.2.2 = ((pre ++ l).filter
          (fun m => counterpart u m == g.1 && (m.to_ == u && !m.read))).length := by
  intro l
  induction l with
  | nil =>
    intro pre seen hseen hsort g hg
    simp [chatGroupsAux] at hg
  | cons m rest ih =>
    intro pre seen hseen hsort g hg
    have heqapp : (pre ++ [m]) ++ rest = pre ++ m :: rest := by simp
    have hsort' : List.Sorted byCreatedDesc ((pre ++ [m]) ++ rest) := by
      rw [heqapp]; exact hsort
    simp only [chatGroupsAux] at hg
    by_cases hc : counterpart u m ∈ seen
    · rw [if_pos hc] at hg
      have hseen' : ∀ s, s ∈ seen ↔ ∃ x ∈ pre ++ [m], counterpart u x = s := by
        intro s
        constructor
        · intro hs
          obtain ⟨x, hx, hxs⟩ := (hseen s).mp hs
          exact ⟨x, List.mem_append_left _ hx, hxs⟩
        · rintro ⟨x, hx, hxs⟩
          rcases List.mem_append.mp hx with hx' | hx'
          · exact (hseen s).mpr ⟨x, hx', hxs⟩
          · have hxm : x = m := by simpa using hx'
            subst hxm
            subst hxs
            exact hc
      obtain ⟨h1, h2, h3, h4⟩ := ih (pre ++ [m]) seen hseen' hsort' g hg
      refine ⟨List.mem_cons_of_mem m h1, h2, ?_, ?_⟩
      · intro x hx hxc
        exact h3 x (by rw [heqapp]; exact hx) hxc
      · rw [h4, heqapp]
    · rw [if_neg hc] at hg
      rcases List.mem_cons.mp hg with rfl | htail
      · refine ⟨List.mem_cons_self m rest, rfl, ?_, ?_⟩
        · intro x hx hxc
          rcases List.mem_append.mp hx with hxpre | hxrest
          · exact absurd ((hseen _).mpr ⟨x, hxpre, hxc⟩) hc
          · rcases List.mem_cons.mp hxrest with rfl | hxr
            · exact Nat.le_refl _
            · have hpair : List.Sorted byCreatedDesc (m :: rest) :=
                (List.pairwise_append.mp hsort).2.1
              exact (List.pairwise_cons.mp hpair).1 x hxr
        · have hprefilter : pre.filter
              (fun x => counterpart u x == counterpart u m && (x.to_ == u && !x.read)) = [] := by
            rw [List.filter_eq_nil_iff]
            intro x hx hpx
            have hcp' : counterpart u x = counterpart u m := by
              simp only [Bool.and_eq_true, beq_iff_eq] at hpx
              exact hpx.1
            exact hc ((hseen _).mpr ⟨x, hx, hcp'⟩)
          rw [List.filter_append, hprefilter, List.nil_append]
      · have hseen' : ∀ s, s ∈ counterpart u m :: seen ↔
            ∃ x ∈ pre ++ [m], counterpart u x = s := by
          intro s
          constructor
          · intro hs
            rcases List.mem_cons.mp hs with rfl | hs'
            · exact ⟨m, List.mem_append_right _ (List.mem_singleton_self m), rfl⟩
            · obtain ⟨x, hx, hxs⟩ := (hseen s).mp hs'
              exact ⟨x, List.mem_append_left _ hx, hxs⟩
          · rintro ⟨x, hx, hxs⟩
            rcases List.mem_append.mp hx with hx' | hx'
            · exact List.mem_cons_of_mem _ ((hseen s).mpr ⟨x, hx', hxs⟩)
            · have hxm : x = m := by simpa using hx'
              subst hxm
              subst hxs
              exact List.mem_cons_self _ _
        obtain ⟨h1, h2, h3, h4⟩ := ih (pre ++ [m]) (counterpart u m :: seen) hseen' hsort' g htail
        refine ⟨List.mem_cons_of_mem m h1, h2, ?_, ?_⟩
        · intro x hx hxc
          exact h3 x (by rw [heqapp]; exact hx) hxc
        · rw [h4, heqapp]

/-- **C4.** For every user `u` with a valid id and a store whose messages
satisfy the creation invariant `from ≠ to`, `getChatList u` returns entries
with (i) pairwise-distinct counterpart ids, (ii) each entry's `lastMessage`
being a latest (maximal `createdAt`) non-deleted message exchanged with
that counterpart, (iii) each `unreadCount` equal to the number of
non-deleted unread messages from that counterpart to `u`, and (iv) the
entries sorted by `lastMessage.createdAt` descending. -/
theorem getChatList_spec (users : List User) (st : Store) (u : String)
    (hu : isValidObjectId u = true)
    (hft : ∀ m ∈ st, m.from_ ≠ m.to_) :
    ∃ entries,
      getChatList users st u = .ok entries ∧
      (entries.map (fun e => e.userId)).Nodup ∧
      (∀ e ∈ entries, ∃ lm ∈ st,
        (lm.from_ = u ∨ lm.to_ = u) ∧ lm.isDeleted = false ∧
        counterpart u lm = e.userId ∧
        e.lastContent = lm.content ∧ e.lastCreatedAt = lm.createdAt ∧ e.lastRead = lm.read ∧
        (∀ m ∈ st, (m.from_ = u ∨ m.to_ = u) → m.isDeleted = false →
          counterpart u m = e.userId → m.createdAt ≤ lm.createdAt)) ∧
      (∀ e ∈ entries, e.unreadCount =
        (st.filter
          (fun m => m.from_ == e.userId && m.to_ == u && !m.read && !m.isDeleted)).length) ∧
      entries.Pairwise (fun e1 e2 => e2.lastCreatedAt ≤ e1.lastCreatedAt) := by
  have hperm : List.Perm (sortByCreatedDesc (st.filter (chatListMatch u)))
      (st.filter (chatListMatch u)) := List.perm_insertionSort _ _
  have hsorted : List.Sorted byCreatedDesc (sortByCreatedDesc (st.filter (chatListMatch u))) :=
    List.sorted_insertionSort _ _
  have hinv : ∀ s : String, s ∈ ([] : List String) ↔
      ∃ m ∈ ([] : List Message), counterpart u m = s := by simp
  have hgspec := chatGroupsAux_mem_spec u (sortByCreatedDesc (st.filter (chatListMatch u)))
    [] [] hinv hsorted
  have hkeys := chatGroupsAux_keys_pairwise u (sortByCreatedDesc (st.filter (chatListMatch u))) []
  have hsgperm : List.Perm
      (List.insertionSort groupDesc
        (chatGroupsAux u [] (sortByCreatedDesc (st.filter (chatListMatch u)))))
      (chatGroupsAux u [] (sortByCreatedDesc (st.filter (chatListMatch u)))) :=
    List.perm_insertionSort _ _
  have hsgsorted : List.Sorted groupDesc
      (List.insertionSort groupDesc
        (chatGroupsAux u [] (sortByCreatedDesc (st.filter (chatListMatch u))))) :=
    List.sorted_insertionSort _ _
  refine ⟨(List.insertionSort groupDesc
      (chatGroupsAux u [] (sortByCreatedDesc (st.filter (chatListMatch u))))).filterMap
        (chatListProject users), ?_, ?_, ?_, ?_, ?_⟩
  · simp [getChatList, hu]
  · have hkeys' : (List.insertionSort groupDesc
        (chatGroupsAux u [] (sortByCreatedDesc (st.filter (chatListMatch u))))).Pairwise
          (fun g h => g.1 ≠ h.1) :=
      (hsgperm.pairwise_iff (fun hne => Ne.symm hne)).mpr hkeys
    have hpw := pairwise_filterMap_of (S := fun e1 e2 => e1.userId ≠ e2.userId)
      (chatListProject users)
      (fun g g' e e' hge hge' hne => by
        show e.userId ≠ e'.userId
        rw [(chatListProject_some hge).1, (chatListProject_some hge').1]
        exact hne) hkeys'
    exact List.pairwise_map.mpr hpw
  · intro e he
    obtain ⟨g, hg_sg, hproj⟩ := List.mem_filterMap.mp he
    have hg := (hsgperm.mem_iff).mp hg_sg
    obtain ⟨hmem, hcp, hmax, -⟩ := hgspec g hg
    obtain ⟨heid, hec, hecr, herd, -⟩ := chatListProject_some hproj
    have hmem_f : g.2.1 ∈ st.filter (chatListMatch u) := hperm.mem_iff.mp hmem
    have hmf := List.mem_filter.mp hmem_f
    have hmatch := chatListMatch_iff.mp hmf.2
    refine ⟨g.2.1, hmf.1, hmatch.1, hmatch.2, by rw [heid]; exact hcp,
            hec, hecr, herd, ?_⟩
    intro m hm hpart hdel hcpm
    rw [heid] at hcpm
    refine hmax m ?_ hcpm
    exact hperm.mem_iff.mpr (List.mem_filter.mpr ⟨hm, chatListMatch_iff.mpr ⟨hpart, hdel⟩⟩)
  · intro e he
    obtain ⟨g, hg_sg, hproj⟩ := List.mem_filterMap.mp he
    have hg := (hsgperm.mem_iff).mp hg_sg
    obtain ⟨-, -, -, hcount⟩ := hgspec g hg
    obtain ⟨heid, -, -, -, heuc⟩ := chatListProject_some hproj
    rw [heuc, hcount, List.nil_append]
    have hqperm := hperm.filter (fun m => counterpart u m == g.1 && (m.to_ == u && !m.read))
    rw [hqperm.length_eq, List.filter_filter]
    rw [heid]
    congr 1
    apply List.filter_congr
    intro m hm
    exact count_pred_eq u g.1 m (hft m hm)
  · refine pairwise_filterMap_of (S := fun e1 e2 => e2.lastCreatedAt ≤ e1.lastCreatedAt)
      (chatListProject users) ?_ hsgsorted
    intro g g' e e' hge hge' hR
    show e'.lastCreatedAt ≤ e.lastCreatedAt
    rw [(chatListProject_some hge).2.2.1, (chatListProject_some hge').2.2.1]
    exact hR

/-- Witness for C4 on a four-message store: Alice's chat list over messages
with Bob (one deleted) and Carol. -/
theorem getChatList_spec_witness :
    (isValidObjectId alice.id = true ∧
     ∀ m ∈ [msgAB1, msgBA2, msgCA3, delMsg], m.from_ ≠ m.to_) ∧
    (∃ entries,
      getChatList [alice, bob, carol] [msgAB1, msgBA2, msgCA3, delMsg] alice.id =
        .ok entries ∧
      (entries.map (fun e => e.userId)).Nodup ∧
      (∀ e ∈ entries, ∃ lm ∈ [msgAB1, msgBA2, msgCA3, delMsg],
        (lm.from_ = alice.id ∨ lm.to_ = alice.id) ∧ lm.isDeleted = false ∧
        counterpart alice.id lm = e.userId ∧
        e.lastContent = lm.content ∧ e.lastCreatedAt = lm.createdAt ∧ e.lastRead = lm.read ∧
        (∀ m ∈ [msgAB1, msgBA2, msgCA3, delMsg],
          (m.from_ = alice.id ∨ m.to_ = alice.id) → m.isDeleted = false →
          counterpart alice.id m = e.userId → m.createdAt ≤ lm.createdAt)) ∧
      (∀ e ∈ entries, e.unreadCount =
        ([msgAB1, msgBA2, msgCA3, delMsg].filter
          (fun m => m.from_ == e.userId && m.to_ == alice.id && !m.read &&
            !m.isDeleted)).length) ∧
      entries.Pairwise (fun e1 e2 => e2.lastCreatedAt ≤ e1.lastCreatedAt)) :=
  ⟨⟨by decide, by decide⟩,
    getChatList_spec [alice, bob, carol] [msgAB1, msgBA2, msgCA3, delMsg] alice.id
      (by decide) (by decide)⟩

end YouApp
